import Mathlib

/-!
Verification of the GFS platooning controller (`src/model/GFS/GFS_controller.py`)
against its natural-language specification.

Shallow embedding conventions:
* Python floats are modelled by `ℚ`; all arithmetic in the controller is
  exact (sums, differences, comparisons, affine maps), so `ℚ` is faithful.
* Python exceptions (IndexError on list indexing, KeyError on dict lookup,
  UnboundLocalError on the unassigned lane-center variable, ValueError from
  `list.remove`) are modelled by `Option`: a failing computation is `none`.
* The CARLA world query, the waypoint map lookup and the light-state query
  are external sensors; a `RawVehicle` record carries their results
  (position, scalar speed = magnitude of the 3-D velocity, waypoint road id,
  waypoint lane id, light-state string).
* `getContext` compares `sqrt(dx^2+dy^2) <= sensor_range`; the embedding
  compares `dx^2+dy^2 <= sensor_range^2`, which agrees with the source for
  every nonnegative range (the only meaningful sensing radii).
* Python dicts are modelled as association lists in insertion order; vehicle
  identifiers in a CARLA world are unique, so first-match lookup agrees with
  dict lookup.
-/

namespace GFS

/-- Result of the external CARLA queries for one vehicle: identity, native
location (`get_location().x/.y`), scalar speed (the 3-D velocity magnitude
computed in `getContext`), the waypoint road and lane ids used by
`getLane`/`getLaneIndex`, and the light state string used by `getSignal`. -/
structure RawVehicle where
  id : ℕ
  locX : ℚ
  locY : ℚ
  speed : ℚ
  roadId : Int
  carlaLane : Int
  lightState : String
deriving DecidableEq, Repr

/-- One entry of the context dictionary built by `getContext`: speed (key 64),
position (key 66), lane id (key 81), lane index (key 82), signal (key 91). -/
structure VehData where
  speed : ℚ
  pos : ℚ × ℚ
  lane : String
  laneIndex : Int
  signal : ℚ
deriving DecidableEq, Repr

/-- The context dictionary, in insertion order. -/
abbrev Context := List (ℕ × VehData)

/-- Dictionary lookup `veh[2][name]`; `none` models a Python KeyError. -/
def ctxFind (ctx : Context) (k : ℕ) : Option VehData :=
  (ctx.find? (fun p => decide (p.1 = k))).map Prod.snd

/-- Embeds `getPosition`: CARLA and SUMO/OpenDrive use opposite lateral
coordinates, hence the `y` value has a negative sign. -/
def getPosition (v : RawVehicle) : ℚ × ℚ :=
  (v.locX, -v.locY)

/-- Embeds `getLane`: maps the waypoint road id and CARLA lane id to a
SUMO-style lane identifier string. -/
def getLane (v : RawVehicle) : String :=
  let e := v.roadId
  let ln := v.carlaLane
  let (edgeName, outputLn) : String × Int :=
    if e = 10 ∨ e = 5 ∨ e = 3 then ("gneE0", ln + 3)
    else if e = 2 ∨ e = 12 ∨ e = 11 then ("gneE1", ln + 2)
    else if e = 1 then ("gneE4", ln + 4)
    else if e = 8 ∨ e = 0 ∨ e = 9 then ("gneE5", ln + 3)
    else if e = 25 then (":gneJ6_0", ln + 1)
    else if e = 29 then (":gneJ6_0", ln + 3)
    else if e = 14 then (":gneJ1_0", 0)
    else if e = 19 then (":gneJ1_1", ln + 2)
    else ("None", 0)
  edgeName ++ "_" ++ toString outputLn

/-- Embeds `getLaneIndex`: maps the waypoint road id and CARLA lane id to a
SUMO-style integer lane index. -/
def getLaneIndex (v : RawVehicle) : Int :=
  let e := v.roadId
  let ln := v.carlaLane
  if e = 7 ∨ e = 16 ∨ e = 2 then ln + 3
  else if e = 1 ∨ e = 39 ∨ e = 8 then ln + 2
  else if e = 0 then ln + 4
  else if e = 5 ∨ e = 46 ∨ e = 6 then ln + 3
  else if e = 30 then ln + 1
  else if e = 34 then ln + 3
  else if e = 21 ∨ e = 3 then 0
  else if e = 25 ∨ e = 4 then ln + 2
  else 0

/-- Embeds `getSignal`: 4-bit light-state flag. -/
def getSignal (v : RawVehicle) : ℚ :=
  if v.lightState = "NONE" then 0
  else if v.lightState = "RightBlinker" then 1
  else if v.lightState = "LeftBlinker" then 2
  else if v.lightState = "Brake" then 8
  else 0

/-- The context-dictionary entry `getContext` produces for a sensed vehicle. -/
def mkCtxData (v : RawVehicle) : VehData :=
  { speed := v.speed
    pos := getPosition v
    lane := getLane v
    laneIndex := getLaneIndex v
    signal := getSignal v }

/-- Embeds `getContext`: iterate all vehicles of the world and keep those whose
planar distance (in sign-flipped coordinates) is at most `sensorRange`.
The source compares `sqrt(dx^2+dy^2) <= sensor_range`; here the comparison is
squared on both sides, which agrees for every `0 ≤ sensorRange`.
Note the source has no identifier check, so the reference vehicle itself
(distance zero) is included whenever it is part of the world. -/
def getContext (sensorRange : ℚ) (world : List RawVehicle) (vehicle : RawVehicle) :
    Context :=
  world.filterMap (fun v =>
    if (vehicle.locX - v.locX) ^ 2 + ((-vehicle.locY) - (-v.locY)) ^ 2 ≤ sensorRange ^ 2
    then some (v.id, mkCtxData v)
    else none)

/-- Monadic collection of the per-element results of an iteration that aborts
on the first failure, in iteration order (the shape of every Python loop in
the controller that appends per-element results and may raise). -/
def collectSome {α β : Type} (f : α → Option β) : List α → Option (List β)
  | [] => some []
  | a :: rest =>
    match f a, collectSome f rest with
    | some b, some bs => some (b :: bs)
    | _, _ => none

/-- Lane-center table of `getInputs2FIS` (CARLA y-coordinates, sign-flipped):
`Y_ML = [-7.5, -4.5, -1.5]`. -/
def Y_ML : List ℚ := [-7.5, -4.5, -1.5]

/-- The tolerance-band chain of `getInputs2FIS` assigning the lane-center
variable `v_y`; outside all three bands the Python variable stays unassigned
and the later read raises, modelled by `none`. -/
def laneCenter (y : ℚ) : Option ℚ :=
  if -7.5 - 1.5 < y ∧ y < -7.5 + 1.5 then some (-7.5)
  else if -4.5 - 1.5 < y ∧ y < -4.5 + 1.5 then some (-4.5)
  else if -1.5 - 1.5 < y ∧ y < -1.5 + 1.5 then some (-1.5)
  else none

/-- The three mutable 6-slot arrays of `getInputs2FIS`:
`[left ahead, left behind, same ahead, same behind, right ahead, right behind]`. -/
structure SlotState where
  distances : List ℚ
  speeds : List ℚ
  signals : List ℚ
deriving DecidableEq, Repr

/-- Initial slot arrays: distances 150, speeds 50, signals 0. -/
def initialSlots : SlotState :=
  { distances := List.replicate 6 150
    speeds := List.replicate 6 50
    signals := List.replicate 6 0 }

/-- The pair of guarded slot writes shared by every branch of
`getInputs2FIS`: when a nearest-ahead distance exists, write slot `base`
(distance as found, neighbor speed, neighbor signal); when a nearest-behind
distance exists, write slot `base + 1` with the absolute distance.
The Python guards test the truthiness of `dist_ahead`/`dist_behind`; those
values are strictly positive resp. strictly negative whenever present, so
presence is the faithful test.  The neighbor lookup cannot fail when the
distance is present (the matching id list is then nonempty and its ids come
from the context keys); a failing lookup is modelled as skipping the write. -/
def writeSlots (ctx : Context) (st : SlotState) (base : ℕ)
    (distAhead distBehind : Option ℚ) (idAhead idBehind : List ℕ) : SlotState :=
  let st1 :=
    match distAhead, idAhead.head?.bind (fun i => ctxFind ctx i) with
    | some d, some vd =>
        { st with
          distances := st.distances.set base d
          speeds := st.speeds.set base vd.speed
          signals := st.signals.set base vd.signal }
    | _, _ => st
  match distBehind, idBehind.head?.bind (fun i => ctxFind ctx i) with
  | some d, some vd =>
      { st1 with
        distances := st1.distances.set (base + 1) |d|
        speeds := st1.speeds.set (base + 1) vd.speed
        signals := st1.signals.set (base + 1) vd.signal }
  | _, _ => st1

/-- One iteration of the `for y in lanes_cons` loop in the multi-lane regime
of `getInputs2FIS`: find the nearest ahead/behind neighbors whose lateral
coordinate is within `0.1` of the lane center `y`, then write the left slots,
same-lane slots or right slots according to the sign of `y - veh_pos[1]`.
As in the source, the id lists match on the x-offset alone, so a vehicle of a
different lane sharing the extremal offset can supply speed and signal. -/
def updateForLane (ctx : Context) (around : List ℕ) (DISTx : List (ℚ × ℚ))
    (vehY : ℚ) (st : SlotState) (y : ℚ) : SlotState :=
  let distAhead := (DISTx.filterMap
    (fun c => if 0 < c.1 ∧ |c.2 - y| < 0.1 then some c.1 else none)).min?
  let distBehind := (DISTx.filterMap
    (fun c => if c.1 < 0 ∧ |c.2 - y| < 0.1 then some c.1 else none)).max?
  let idAhead : List ℕ :=
    match distAhead with
    | some d => (around.zip DISTx).filterMap
        (fun p => if p.2.1 = d then some p.1 else none)
    | none => []
  let idBehind : List ℕ :=
    match distBehind with
    | some d => (around.zip DISTx).filterMap
        (fun p => if p.2.1 = d then some p.1 else none)
    | none => []
  if 0 < y - vehY then
    writeSlots ctx st 0 distAhead distBehind idAhead idBehind
  else if y - vehY = 0 then
    writeSlots ctx st 2 distAhead distBehind idAhead idBehind
  else
    writeSlots ctx st 4 distAhead distBehind idAhead idBehind

/-- The multi-lane regime of `getInputs2FIS` (the `else` branch on the edge
test): resolve the lane center of the vehicle by tolerance bands (`none`
models the unassigned-variable error outside all bands), build the lanes
under consideration `{left, own, right} ∩ [0, 2]`, and fold the per-lane
update over them. -/
def multiLaneRegime (ctx : Context) (vehPos : ℚ × ℚ) (around : List ℕ)
    (st0 : SlotState) : Option SlotState :=
  match laneCenter vehPos.2 with
  | none => none
  | some vY =>
    let vehLane : Int := Y_ML.findIdx (fun a => decide (a = vY))
    let lanesCons : List ℚ :=
      ([vehLane - 1, vehLane, vehLane + 1].filter
        (fun a => decide (-1 < a ∧ a < 3))).filterMap
        (fun a => Y_ML[a.toNat]?)
    match collectSome (fun a => (ctxFind ctx a).map VehData.pos) around with
    | none => none
    | some posAll =>
      let DISTx := posAll.map (fun b => (b.1 - vehPos.1, b.2))
      some (lanesCons.foldl (fun st y => updateForLane ctx around DISTx vehPos.2 st y) st0)

/-- The single-lane (merge-approach) regime of `getInputs2FIS` (the branch for
`veh_edge` in `{gneE1_0, :gneJ1_0_0}`): restrict candidates to vehicles whose
stored lane id is `gneE1_0`, find the nearest ahead/behind by the x-offset
sign, and write the same-lane slots (indices 2 and 3) only. -/
def mergeLaneRegime (ctx : Context) (vehPos : ℚ × ℚ) (around : List ℕ)
    (st0 : SlotState) : Option SlotState :=
  let allVehsMerge := around.filter
    (fun a => decide ((ctxFind ctx a).map VehData.lane = some "gneE1_0"))
  match collectSome (fun a => (ctxFind ctx a).map VehData.pos) allVehsMerge with
  | none => none
  | some posMerge =>
    let DISTxMerge := posMerge.map (fun b => b.1 - vehPos.1)
    let distAhead := (DISTxMerge.filter (fun c => decide (0 < c))).min?
    let distBehind := (DISTxMerge.filter (fun c => decide (c < 0))).max?
    let idAhead : List ℕ :=
      match distAhead with
      | some d => (allVehsMerge.zip DISTxMerge).filterMap
          (fun p => if p.2 = d then some p.1 else none)
      | none => []
    let idBehind : List ℕ :=
      match distBehind with
      | some d => (allVehsMerge.zip DISTxMerge).filterMap
          (fun p => if p.2 = d then some p.1 else none)
      | none => []
    some (writeSlots ctx st0 2 distAhead distBehind idAhead idBehind)

/-- Sentinel cap of the post-pass for distances: `a if a < 150 else -1`. -/
def capD (a : ℚ) : ℚ := if a < 150 then a else -1

/-- Sentinel cap of the post-pass for speeds: `a if a < 50 else -1`. -/
def capS (a : ℚ) : ℚ := if a < 50 then a else -1

/-- The post-pass of `getInputs2FIS`: per segment id, slots of lanes that do
not exist around the vehicle are capped to `-1` (slice assignments
`distances[0:2]`, `distances[4:]` and the speed counterparts). -/
def postPass (vehEdge : String) (d s : List ℚ) : List ℚ × List ℚ :=
  if vehEdge = "gneE1_0" ∨ vehEdge = ":gneJ1_0_0" then
    let d1 := (d.take 2).map capD ++ d.drop 2
    let d2 := d1.take 4 ++ (d1.drop 4).map capD
    let s1 := (s.take 2).map capS ++ s.drop 2
    let s2 := s1.take 4 ++ (s1.drop 4).map capS
    (d2, s2)
  else if vehEdge = "gneE0_0" ∨ vehEdge = "gneE4_0" ∨ vehEdge = "gneE5_0" ∨
      vehEdge = ":gneJ6_0_1" then
    (d.take 4 ++ (d.drop 4).map capD, s.take 4 ++ (s.drop 4).map capS)
  else if vehEdge = "gneE0_1" ∨ vehEdge = "gneE4_2" ∨ vehEdge = "gneE5_1" ∨
      vehEdge = ":gneJ1_1_1" ∨ vehEdge = ":gneJ6_0_2" then
    ((d.take 2).map capD ++ d.drop 2, (s.take 2).map capS ++ s.drop 2)
  else (d, s)

/-- Embeds `getInputs2FIS`.  The vehicle argument `[0, veh_name, veh_context]`
is passed as the name and the context.  As in the source, the current lane
segment is the hardcoded literal `veh_edge = 'gneE4_0'` (the lookup
`veh[2][veh_name][81]` is commented out in the source), so the regime test and
the post-pass branch on that literal.  `none` models the Python errors: a
KeyError on the self lookup, and the unassigned lane-center variable. -/
def getInputs2FIS (vehName : ℕ) (ctx : Context) : Option (List ℚ) :=
  let vehEdge := "gneE4_0"
  match ctxFind ctx vehName with
  | none => none
  | some self =>
    let around := (ctx.map Prod.fst).erase vehName
    let stO :=
      if vehEdge = "gneE1_0" ∨ vehEdge = ":gneJ1_0_0" then
        mergeLaneRegime ctx self.pos around initialSlots
      else
        multiLaneRegime ctx self.pos around initialSlots
    match stO with
    | none => none
    | some st =>
      let ds := postPass vehEdge st.distances st.speeds
      some (ds.1 ++ ds.2 ++ st.signals ++ [self.pos.1, self.pos.2] ++ [self.speed])

/-- Candidate leader and rear data for one merge slot: leader position and
speed, rear position and speed, with `(500, 500)` and `50` at the open ends. -/
structure SlotEnds where
  leadPos : ℚ × ℚ
  leadSpeed : ℚ
  rearPos : ℚ × ℚ
  rearSpeed : ℚ
deriving DecidableEq, Repr

/-- The leader/rear data assembled by iteration `j` of the slot loop of
`getBestMergePosition`: slot 0 uses leader sentinels and the first platoon
vehicle as rear, slot `platoon_length` uses the last platoon vehicle as leader
and rear sentinels, interior slots use the two adjacent members.  `none`
models the IndexError the source raises when the accessed member is missing
(notably `platoon_vehicles[0]` on an empty platoon). -/
def slotEnds (pv : List RawVehicle) (j : ℕ) : Option SlotEnds :=
  if j = 0 then
    (pv[j]?).map (fun rear =>
      ⟨(500, 500), 50, getPosition rear, rear.speed⟩)
  else if j = pv.length then
    (pv[j - 1]?).map (fun lead =>
      ⟨getPosition lead, lead.speed, (500, 500), 50⟩)
  else
    match pv[j - 1]?, pv[j]? with
    | some lead, some rear =>
        some ⟨getPosition lead, lead.speed, getPosition rear, rear.speed⟩
    | _, _ => none

/-- The per-slot evaluation vector `full_list2` of `getBestMergePosition`:
`inputs[0:4] + inputs[6:10] + inputs[12:16] + [inputs[18]] + [inputs[20]]`
followed by leader x-position, leader speed, rear x-position, rear speed.
`none` models the IndexError when `inputs` is shorter than 21 fields. -/
def fullList2 (inputs : List ℚ) (e : SlotEnds) : Option (List ℚ) :=
  match inputs[18]?, inputs[20]? with
  | some x18, some x20 =>
      some (inputs.take 4 ++ (inputs.drop 6).take 4 ++ (inputs.drop 12).take 4 ++
        [x18, x20, e.leadPos.1, e.leadSpeed, e.rearPos.1, e.rearSpeed])
  | _, _ => none

/-- The middle-lane membership test of `getBestMergePosition`:
`abs(manager.vehicle.get_location().y - 4.5) < 1.5` on the native (un-flipped)
y-coordinate. -/
def inBandB (m : RawVehicle) : Bool :=
  decide (|m.locY - 4.5| < 1.5)

/-- The score list `all_scores` of `getBestMergePosition` over an
already-filtered platoon: one scorer evaluation per slot index
`j = 0 .. platoon_length`. -/
def allScores (scorer : List ℚ → ℚ) (inputs : List ℚ) (pv : List RawVehicle) :
    Option (List ℚ) :=
  collectSome
    (fun j => (slotEnds pv j).bind (fun e => (fullList2 inputs e).map scorer))
    (List.range (pv.length + 1))

/-- The score list `all_scores` of `getBestMergePosition` for an input manager
list, after the middle-lane filter the source applies first. -/
def mergeSlotScores (scorer : List ℚ → ℚ) (inputs : List ℚ)
    (managerList : List RawVehicle) : Option (List ℚ) :=
  allScores scorer inputs (managerList.filter inBandB)

/-- Embeds `getBestMergePosition`, lines 54-115.  The manager list is the
platoon manager list; a manager and its vehicle are one record here, so the
two parallel filtered lists of the source (`platoon_vehicles` and
`platoon_vehicle_managers`) are the single filtered list `pv`.  The feature
vector `inputs` of the merging vehicle is a parameter; the source computes it
as `getInputs2FIS` of the merging vehicle's context (see
`getBestMergePositionFull`).  `best_id = all_scores.index(max(all_scores))`
picks the first index attaining the maximum score.  The returned handles are
`None` at the open ends, as in the source. -/
def getBestMergePosition (scorer : List ℚ → ℚ) (inputs : List ℚ)
    (managerList : List RawVehicle) :
    Option (Option RawVehicle × Option RawVehicle × ℕ) :=
  let pv := managerList.filter inBandB
  match allScores scorer inputs pv with
  | none => none
  | some scores =>
    match scores.max? with
    | none => none
    | some mx =>
      let best := scores.findIdx (fun a => decide (a = mx))
      if best = 0 then
        (pv[best]?).map (fun rear => (none, some rear, best))
      else if best = pv.length then
        (pv[best - 1]?).map (fun lead => (some lead, none, best))
      else
        match pv[best - 1]?, pv[best]? with
        | some lead, some rear => some (some lead, some rear, best)
        | _, _ => none

/-- The full orchestration of `getBestMergePosition`: the merging vehicle's
context is sensed, its feature vector extracted, and the slot decision made. -/
def getBestMergePositionFull (scorer : List ℚ → ℚ) (sensorRange : ℚ)
    (world : List RawVehicle) (mergeVeh : RawVehicle)
    (managerList : List RawVehicle) :
    Option (Option RawVehicle × Option RawVehicle × ℕ) :=
  match getInputs2FIS mergeVeh.id (getContext sensorRange world mergeVeh) with
  | none => none
  | some inputs => getBestMergePosition scorer inputs managerList

/-- Embeds `getDesiredSpeed_pl`: evaluate the leader-speed model on the
vehicle's feature vector, map the first output through
`accln = 3.55 * out - 0.95` and integrate one step
`des_speed = cur_speed + accln * dt`.  The current speed is the external
`get_speed(vehicle, True)` reading. -/
def getDesiredSpeed_pl (gfsPlSpeed : List ℚ → List ℚ) (dt : ℚ)
    (sensorRange : ℚ) (world : List RawVehicle) (vehicle : RawVehicle)
    (curSpeed : ℚ) : Option ℚ :=
  match getInputs2FIS vehicle.id (getContext sensorRange world vehicle) with
  | none => none
  | some inputs =>
    match (gfsPlSpeed inputs)[0]? with
    | none => none
    | some out => some (curSpeed + ((3.55 : ℚ) * out - 0.95) * dt)

/-- Embeds `getDesiredSpeed_m`: identical update rule with the merger-speed
model. -/
def getDesiredSpeed_m (gfsMSpeed : List ℚ → List ℚ) (dt : ℚ)
    (sensorRange : ℚ) (world : List RawVehicle) (vehicle : RawVehicle)
    (curSpeed : ℚ) : Option ℚ :=
  match getInputs2FIS vehicle.id (getContext sensorRange world vehicle) with
  | none => none
  | some inputs =>
    match (gfsMSpeed inputs)[0]? with
    | none => none
    | some out => some (curSpeed + ((3.55 : ℚ) * out - 0.95) * dt)

/-! ### Helper lemmas -/

theorem writeSlots_lengths (ctx : Context) (st : SlotState) (base : ℕ)
    (da db : Option ℚ) (ia ib : List ℕ) :
    (writeSlots ctx st base da db ia ib).distances.length = st.distances.length ∧
    (writeSlots ctx st base da db ia ib).speeds.length = st.speeds.length ∧
    (writeSlots ctx st base da db ia ib).signals.length = st.signals.length := by
  unfold writeSlots
  cases da <;> cases db <;>
    cases ia.head?.bind (fun i => ctxFind ctx i) <;>
    cases ib.head?.bind (fun i => ctxFind ctx i) <;>
    simp [List.length_set]

theorem updateForLane_lengths (ctx : Context) (around : List ℕ)
    (DISTx : List (ℚ × ℚ)) (vehY : ℚ) (st : SlotState) (y : ℚ) :
    (updateForLane ctx around DISTx vehY st y).distances.length = st.distances.length ∧
    (updateForLane ctx around DISTx vehY st y).speeds.length = st.speeds.length ∧
    (updateForLane ctx around DISTx vehY st y).signals.length = st.signals.length := by
  unfold updateForLane
  split
  · exact writeSlots_lengths ..
  split
  · exact writeSlots_lengths ..
  · exact writeSlots_lengths ..

theorem foldl_updateForLane_lengths (ctx : Context) (around : List ℕ)
    (DISTx : List (ℚ × ℚ)) (vehY : ℚ) (ys : List ℚ) (st : SlotState) :
    (ys.foldl (fun st y => updateForLane ctx around DISTx vehY st y) st).distances.length
      = st.distances.length ∧
    (ys.foldl (fun st y => updateForLane ctx around DISTx vehY st y) st).speeds.length
      = st.speeds.length ∧
    (ys.foldl (fun st y => updateForLane ctx around DISTx vehY st y) st).signals.length
      = st.signals.length := by
  induction ys generalizing st with
  | nil => exact ⟨rfl, rfl, rfl⟩
  | cons y ys ih =>
    have h1 := updateForLane_lengths ctx around DISTx vehY st y
    have h2 := ih (updateForLane ctx around DISTx vehY st y)
    simp only [List.foldl_cons]
    exact ⟨h2.1.trans h1.1, h2.2.1.trans h1.2.1, h2.2.2.trans h1.2.2⟩

theorem multiLaneRegime_lengths (ctx : Context) (vehPos : ℚ × ℚ)
    (around : List ℕ) (st0 st : SlotState)
    (h : multiLaneRegime ctx vehPos around st0 = some st) :
    st.distances.length = st0.distances.length ∧
    st.speeds.length = st0.speeds.length ∧
    st.signals.length = st0.signals.length := by
  unfold multiLaneRegime at h
  split at h
  · exact absurd h (by simp)
  · split at h
    · exact absurd h (by simp)
    · obtain rfl : _ = st := Option.some_injective _ h
      exact foldl_updateForLane_lengths ..

theorem mergeLaneRegime_lengths (ctx : Context) (vehPos : ℚ × ℚ)
    (around : List ℕ) (st0 st : SlotState)
    (h : mergeLaneRegime ctx vehPos around st0 = some st) :
    st.distances.length = st0.distances.length ∧
    st.speeds.length = st0.speeds.length ∧
    st.signals.length = st0.signals.length := by
  simp only [mergeLaneRegime] at h
  split at h
  · exact absurd h (by simp)
  · obtain rfl : _ = st := Option.some_injective _ h
    exact writeSlots_lengths ..

theorem collectSome_isSome {α β : Type} (f : α → Option β) (l : List α)
    (h : ∀ a ∈ l, (f a).isSome) :
    ∃ out, collectSome f l = some out ∧ out.length = l.length := by
  induction l with
  | nil => exact ⟨[], rfl, rfl⟩
  | cons a rest ih =>
    obtain ⟨b, hb⟩ := Option.isSome_iff_exists.mp (h a (List.mem_cons_self a rest))
    obtain ⟨out, hout, hlen⟩ := ih (fun x hx => h x (List.mem_cons_of_mem a hx))
    refine ⟨b :: out, ?_, by simp [hlen]⟩
    simp [collectSome, hb, hout]

theorem ctxFind_isSome_of_mem_keys (ctx : Context) (k : ℕ)
    (h : k ∈ ctx.map Prod.fst) : (ctxFind ctx k).isSome := by
  obtain ⟨p, hp, hk⟩ := List.mem_map.mp h
  have hex : ∃ x ∈ ctx, (fun q => decide (q.1 = k)) x = true :=
    ⟨p, hp, by simp [hk]⟩
  obtain ⟨q, hq⟩ := Option.isSome_iff_exists.mp (List.find?_isSome.mpr hex)
  simp [ctxFind, hq]

theorem length_six_destruct (l : List ℚ) (h : l.length = 6) :
    ∃ a b c d e f, l = [a, b, c, d, e, f] := by
  match l, h with
  | [a, b, c, d, e, f], _ => exact ⟨a, b, c, d, e, f, rfl⟩

theorem getElem?_isSome_of_lt {α : Type} {l : List α} {i : ℕ}
    (h : i < l.length) : l[i]?.isSome := by
  rw [List.getElem?_eq_getElem h]; exact rfl

theorem fullList2_isSome (inputs : List ℚ) (e : SlotEnds)
    (h : 21 ≤ inputs.length) : (fullList2 inputs e).isSome := by
  obtain ⟨a, ha⟩ := Option.isSome_iff_exists.mp
    (getElem?_isSome_of_lt (l := inputs) (i := 18) (by omega))
  obtain ⟨b, hb⟩ := Option.isSome_iff_exists.mp
    (getElem?_isSome_of_lt (l := inputs) (i := 20) (by omega))
  simp [fullList2, ha, hb]

theorem slotEnds_isSome (pv : List RawVehicle) (j : ℕ)
    (hne : pv ≠ []) (hj : j ≤ pv.length) : (slotEnds pv j).isSome := by
  have hpos : 0 < pv.length := List.length_pos.mpr hne
  unfold slotEnds
  by_cases h0 : j = 0
  · subst h0
    obtain ⟨a, ha⟩ := Option.isSome_iff_exists.mp
      (getElem?_isSome_of_lt (l := pv) (i := 0) hpos)
    simp [ha]
  · by_cases hl : j = pv.length
    · subst hl
      have hj1 : pv.length - 1 < pv.length := by omega
      obtain ⟨a, ha⟩ := Option.isSome_iff_exists.mp
        (getElem?_isSome_of_lt (l := pv) (i := pv.length - 1) hj1)
      simp [h0, ha]
    · rw [if_neg h0, if_neg hl]
      have hj1 : j - 1 < pv.length := by omega
      have hjlt : j < pv.length := by omega
      obtain ⟨a, ha⟩ := Option.isSome_iff_exists.mp
        (getElem?_isSome_of_lt (l := pv) (i := j - 1) hj1)
      obtain ⟨b, hb⟩ := Option.isSome_iff_exists.mp
        (getElem?_isSome_of_lt (l := pv) (i := j) hjlt)
      simp [ha, hb]

theorem allScores_some (scorer : List ℚ → ℚ) (inputs : List ℚ)
    (pv : List RawVehicle) (h21 : 21 ≤ inputs.length) (hne : pv ≠ []) :
    ∃ scores, allScores scorer inputs pv = some scores ∧
      scores.length = pv.length + 1 := by
  obtain ⟨scores, hs, hlen⟩ := collectSome_isSome
    (fun j => (slotEnds pv j).bind (fun e => (fullList2 inputs e).map scorer))
    (List.range (pv.length + 1))
    (by
      intro j hj
      have hj' : j ≤ pv.length := by
        have := List.mem_range.mp hj; omega
      obtain ⟨e, he⟩ := Option.isSome_iff_exists.mp (slotEnds_isSome pv j hne hj')
      obtain ⟨w, hw⟩ := Option.isSome_iff_exists.mp (fullList2_isSome inputs e h21)
      simp [he, hw])
  exact ⟨scores, hs, by simpa using hlen⟩

/-- Characterization of `getBestMergePosition` on a platoon whose middle-lane
filter is nonempty: the score list has one entry per filtered member plus one,
the chosen index is the first index attaining the maximal score, and the
handles are the adjacent filtered members with `none` at the open ends. -/
theorem getBestMergePosition_characterization (scorer : List ℚ → ℚ)
    (inputs : List ℚ) (managerList : List RawVehicle)
    (h21 : 21 ≤ inputs.length)
    (hne : managerList.filter inBandB ≠ []) :
    ∃ scores mx best,
      mergeSlotScores scorer inputs managerList = some scores ∧
      scores.length = (managerList.filter inBandB).length + 1 ∧
      scores.max? = some mx ∧
      best < scores.length ∧
      scores[best]? = some mx ∧
      (∀ i < best, scores[i]? ≠ some mx) ∧
      getBestMergePosition scorer inputs managerList =
        some ((if best = 0 then none else (managerList.filter inBandB)[best - 1]?),
              (if best = (managerList.filter inBandB).length then none
               else (managerList.filter inBandB)[best]?),
              best) := by
  obtain ⟨scores, hs, hlen⟩ :=
    allScores_some scorer inputs (managerList.filter inBandB) h21 hne
  have hscnil : scores ≠ [] := by
    intro hcon; rw [hcon] at hlen; simp at hlen
  obtain ⟨mx, hmx⟩ := Option.isSome_iff_exists.mp
    (by rwa [Ne, ← List.max?_eq_none_iff, ← Option.not_isSome_iff_eq_none,
      not_not] at hscnil)
  have hmem : mx ∈ scores := List.max?_mem max_choice hmx
  have hex : ∃ x ∈ scores, (fun a => decide (a = mx)) x = true :=
    ⟨mx, hmem, by simp⟩
  refine ⟨scores, mx, scores.findIdx (fun a => decide (a = mx)), hs, hlen, hmx,
    ?_, ?_, ?_, ?_⟩
  · exact List.findIdx_lt_length_of_exists hex
  · have hblt : scores.findIdx (fun a => decide (a = mx)) < scores.length :=
      List.findIdx_lt_length_of_exists hex
    rw [List.getElem?_eq_getElem hblt]
    have := List.findIdx_getElem (p := fun a => decide (a = mx)) (w := hblt)
    simpa using this
  · intro i hib
    have hblt : scores.findIdx (fun a => decide (a = mx)) < scores.length :=
      List.findIdx_lt_length_of_exists hex
    have hil : i < scores.length := lt_trans hib hblt
    rw [List.getElem?_eq_getElem hil]
    intro hcon
    have hni := List.not_of_lt_findIdx (p := fun a => decide (a = mx)) hib
    rw [decide_eq_false_iff_not] at hni
    exact hni (Option.some_injective _ hcon)
  · have hblt : scores.findIdx (fun a => decide (a = mx)) < scores.length :=
      List.findIdx_lt_length_of_exists hex
    have hpos : 0 < (managerList.filter inBandB).length := List.length_pos.mpr hne
    have hble : scores.findIdx (fun a => decide (a = mx)) ≤
        (managerList.filter inBandB).length := by omega
    simp only [getBestMergePosition, hs, hmx]
    by_cases hb0 : scores.findIdx (fun a => decide (a = mx)) = 0
    · obtain ⟨r, hr⟩ := Option.isSome_iff_exists.mp
        (getElem?_isSome_of_lt (l := managerList.filter inBandB) (i := 0) hpos)
      have hne0 : ¬((0 : ℕ) = (managerList.filter inBandB).length) := by omega
      simp [hb0, hr, hne0]
    · by_cases hbl : scores.findIdx (fun a => decide (a = mx)) =
          (managerList.filter inBandB).length
      · have hb1 : scores.findIdx (fun a => decide (a = mx)) - 1 <
            (managerList.filter inBandB).length := by omega
        obtain ⟨l, hl⟩ := Option.isSome_iff_exists.mp
          (getElem?_isSome_of_lt
            (l := managerList.filter inBandB)
            (i := scores.findIdx (fun a => decide (a = mx)) - 1) hb1)
        simp only [if_neg hb0, if_pos hbl, hl, Option.map_some']
      · have hb1 : scores.findIdx (fun a => decide (a = mx)) - 1 <
            (managerList.filter inBandB).length := by omega
        have hb2 : scores.findIdx (fun a => decide (a = mx)) <
            (managerList.filter inBandB).length := by omega
        obtain ⟨l, hl⟩ := Option.isSome_iff_exists.mp
          (getElem?_isSome_of_lt
            (l := managerList.filter inBandB)
            (i := scores.findIdx (fun a => decide (a = mx)) - 1) hb1)
        obtain ⟨r, hr⟩ := Option.isSome_iff_exists.mp
          (getElem?_isSome_of_lt
            (l := managerList.filter inBandB)
            (i := scores.findIdx (fun a => decide (a = mx))) hb2)
        simp only [if_neg hb0, if_neg hbl, hl, hr]

theorem postPass_gneE4 (d s : List ℚ) :
    postPass "gneE4_0" d s =
      (d.take 4 ++ (d.drop 4).map capD, s.take 4 ++ (s.drop 4).map capS) := by
  unfold postPass
  rw [if_neg (by decide : ¬("gneE4_0" = "gneE1_0" ∨ "gneE4_0" = ":gneJ1_0_0")),
    if_pos (by decide : "gneE4_0" = "gneE0_0" ∨ "gneE4_0" = "gneE4_0" ∨
      "gneE4_0" = "gneE5_0" ∨ "gneE4_0" = ":gneJ6_0_1")]

/-- Shape of every successful `getInputs2FIS` result: the slot state of the
multi-lane regime (the hardcoded segment makes the merge-lane regime dead
code), post-passed on the right-lane slots, then the assembly
`distances + speeds + signals + position + speed`. -/
theorem getInputs2FIS_shape (vehName : ℕ) (ctx : Context) (L : List ℚ)
    (h : getInputs2FIS vehName ctx = some L) :
    ∃ self st,
      ctxFind ctx vehName = some self ∧
      multiLaneRegime ctx self.pos ((ctx.map Prod.fst).erase vehName)
        initialSlots = some st ∧
      st.distances.length = 6 ∧ st.speeds.length = 6 ∧ st.signals.length = 6 ∧
      L = (st.distances.take 4 ++ (st.distances.drop 4).map capD) ++
          (st.speeds.take 4 ++ (st.speeds.drop 4).map capS) ++
          st.signals ++ [self.pos.1, self.pos.2] ++ [self.speed] := by
  simp only [getInputs2FIS,
    if_neg (by decide : ¬("gneE4_0" = "gneE1_0" ∨ "gneE4_0" = ":gneJ1_0_0"))] at h
  split at h
  · exact absurd h (by simp)
  · rename_i self hself
    split at h
    · exact absurd h (by simp)
    · rename_i st hst
      rw [postPass_gneE4] at h
      have hlen := multiLaneRegime_lengths ctx self.pos
        ((ctx.map Prod.fst).erase vehName) initialSlots st hst
      simp only [initialSlots, List.length_replicate] at hlen
      exact ⟨self, st, hself, hst, hlen.1, hlen.2.1, hlen.2.2,
        (Option.some_injective _ h).symm⟩

theorem multiLaneRegime_some_of_band (ctx : Context) (vehName : ℕ)
    (vehPos : ℚ × ℚ) (c : ℚ) (hc : laneCenter vehPos.2 = some c) :
    ∃ st, multiLaneRegime ctx vehPos ((ctx.map Prod.fst).erase vehName)
      initialSlots = some st := by
  obtain ⟨posAll, hpos, _⟩ := collectSome_isSome
    (fun a => (ctxFind ctx a).map VehData.pos)
    ((ctx.map Prod.fst).erase vehName)
    (by
      intro a ha
      have hmem : a ∈ ctx.map Prod.fst := List.mem_of_mem_erase ha
      obtain ⟨d, hd⟩ := Option.isSome_iff_exists.mp
        (ctxFind_isSome_of_mem_keys ctx a hmem)
      simp [hd])
  have hsome : (multiLaneRegime ctx vehPos ((ctx.map Prod.fst).erase vehName)
      initialSlots).isSome := by
    simp only [multiLaneRegime, hc, hpos, Option.isSome_some]
  exact Option.isSome_iff_exists.mp hsome

theorem getInputs2FIS_some_of_band (vehName : ℕ) (ctx : Context)
    (self : VehData) (c : ℚ) (hself : ctxFind ctx vehName = some self)
    (hc : laneCenter self.pos.2 = some c) :
    ∃ L, getInputs2FIS vehName ctx = some L ∧ L.length = 21 := by
  obtain ⟨st, hst⟩ := multiLaneRegime_some_of_band ctx vehName self.pos c hc
  have hlen := multiLaneRegime_lengths ctx self.pos
    ((ctx.map Prod.fst).erase vehName) initialSlots st hst
  simp only [initialSlots, List.length_replicate] at hlen
  have heq : getInputs2FIS vehName ctx = some
      ((st.distances.take 4 ++ (st.distances.drop 4).map capD) ++
        (st.speeds.take 4 ++ (st.speeds.drop 4).map capS) ++
        st.signals ++ [self.pos.1, self.pos.2] ++ [self.speed]) := by
    simp only [getInputs2FIS,
      if_neg (by decide : ¬("gneE4_0" = "gneE1_0" ∨ "gneE4_0" = ":gneJ1_0_0")),
      hself, hst, postPass_gneE4]
  refine ⟨_, heq, ?_⟩
  simp [List.length_append, List.length_take, List.length_map, List.length_drop,
    hlen.1, hlen.2.1, hlen.2.2]

theorem laneCenter_eq_none_of (y : ℚ)
    (h : ¬((-9 < y ∧ y < -6) ∨ (-6 < y ∧ y < -3) ∨ (-3 < y ∧ y < 0))) :
    laneCenter y = none := by
  unfold laneCenter
  split_ifs with h1 h2 h3
  · exact absurd (Or.inl ⟨by linarith [h1.1], by linarith [h1.2]⟩) h
  · exact absurd (Or.inr (Or.inl ⟨by linarith [h2.1], by linarith [h2.2]⟩)) h
  · exact absurd (Or.inr (Or.inr ⟨by linarith [h3.1], by linarith [h3.2]⟩)) h
  · rfl

theorem laneCenter_isSome_of (y : ℚ)
    (h : (-9 < y ∧ y < -6) ∨ (-6 < y ∧ y < -3) ∨ (-3 < y ∧ y < 0)) :
    ∃ c, laneCenter y = some c := by
  unfold laneCenter
  split_ifs with h1 h2 h3
  · exact ⟨_, rfl⟩
  · exact ⟨_, rfl⟩
  · exact ⟨_, rfl⟩
  · exfalso
    rcases h with ⟨ha, hb⟩ | ⟨ha, hb⟩ | ⟨ha, hb⟩
    · exact h1 ⟨by linarith, by linarith⟩
    · exact h2 ⟨by linarith, by linarith⟩
    · exact h3 ⟨by linarith, by linarith⟩

/-! ### Claim theorems -/

/-- C10: in the multi-lane regime (which always runs, the segment being the
hardcoded literal), feature extraction is partial in the vehicle's
sign-flipped lateral coordinate: for a vehicle whose stored y-coordinate lies
outside all three tolerance bands `(-9,-6)`, `(-6,-3)`, `(-3,0)` the
lane-center variable is never assigned and `getInputs2FIS` fails (the
uninitialized-variable error, modelled as `none`); inside any band it always
returns a 21-field feature vector. -/
theorem C10_partial_in_lateral_coordinate (vehName : ℕ) (ctx : Context)
    (self : VehData) (hself : ctxFind ctx vehName = some self) :
    (¬((-9 < self.pos.2 ∧ self.pos.2 < -6) ∨ (-6 < self.pos.2 ∧ self.pos.2 < -3) ∨
        (-3 < self.pos.2 ∧ self.pos.2 < 0)) →
      getInputs2FIS vehName ctx = none) ∧
    (((-9 < self.pos.2 ∧ self.pos.2 < -6) ∨ (-6 < self.pos.2 ∧ self.pos.2 < -3) ∨
        (-3 < self.pos.2 ∧ self.pos.2 < 0)) →
      ∃ L, getInputs2FIS vehName ctx = some L ∧ L.length = 21) := by
  constructor
  · intro hout
    have hnone : laneCenter self.pos.2 = none := laneCenter_eq_none_of _ hout
    simp only [getInputs2FIS,
      if_neg (by decide : ¬("gneE4_0" = "gneE1_0" ∨ "gneE4_0" = ":gneJ1_0_0")),
      hself, multiLaneRegime, hnone]
  · intro hin
    obtain ⟨c, hc⟩ := laneCenter_isSome_of _ hin
    exact getInputs2FIS_some_of_band vehName ctx self c hself hc

/-- Witness for C10 at concrete inputs: a vehicle at sign-flipped
y-coordinate `3` (outside every band) makes extraction fail, and the same
vehicle at `-4.5` (middle band) yields a 21-field vector. -/
theorem C10_witness :
    getInputs2FIS 1 [(1, ⟨10, (0, 3), "gneE4_1", 1, 0⟩)] = none ∧
    (getInputs2FIS 1 [(1, ⟨10, (0, -4.5), "gneE4_1", 1, 0⟩)]).map List.length
      = some 21 := by
  constructor
  · exact (C10_partial_in_lateral_coordinate 1
      [(1, ⟨10, (0, 3), "gneE4_1", 1, 0⟩)] ⟨10, (0, 3), "gneE4_1", 1, 0⟩
      (by with_unfolding_all decide)).1 (by with_unfolding_all decide)
  · obtain ⟨L, hL, hlen⟩ := (C10_partial_in_lateral_coordinate 1
      [(1, ⟨10, (0, -4.5), "gneE4_1", 1, 0⟩)] ⟨10, (0, -4.5), "gneE4_1", 1, 0⟩
      (by with_unfolding_all decide)).2 (by with_unfolding_all decide)
    rw [hL, Option.map_some', hlen]

/-- Failing input for C2: a vehicle whose sensed lane id is the
merge-approach segment `gneE1_0` (sign-flipped position `(0, -7.5)`) with a
single neighbor on the adjacent mainline lane (position `(10, -4.5)`,
lane `gneE0_0`). -/
def ctxMergeLane : Context :=
  [(1, ⟨10, (0, -7.5), "gneE1_0", 0, 0⟩), (2, ⟨12, (10, -4.5), "gneE0_0", 1, 0⟩)]

/-- C2: the claim says that on the merge-approach segment only the same-lane
slots are computed and left/right stay sentinel.  The code instead ignores
the vehicle's stored lane (`veh_edge` is the hardcoded literal `gneE4_0`, the
lookup being commented out) and always runs the multi-lane regime: on the
failing input the left-ahead slot (index 0) receives the adjacent-lane
neighbor distance 10 and the left-ahead speed (index 6) its speed 12, while
the claim requires both to stay sentinel. -/
theorem C2_hardcoded_edge_runs_multilane :
    getInputs2FIS 1 ctxMergeLane =
      some [10, 150, 150, 150, -1, -1, 12, 50, 50, 50, -1, -1,
        0, 0, 0, 0, 0, 0, 0, -7.5, 10] := by
  with_unfolding_all decide

/-- Snapshot with no neighbor in any slot (the vehicle alone), middle band. -/
def ctxNoNeighbor : Context :=
  [(1, ⟨10, (0, -4.5), "gneE4_1", 1, 0⟩)]

/-- Counterexample to C3: with no neighbor in any slot, only the right-lane
slots are mapped to `-1`; the left and same-lane slots keep the raw
sentinels, so the output feature vector contains raw 150 (index 0) and
raw 50 (index 6), which the claim forbids. -/
theorem C3_counterexample :
    getInputs2FIS 1 ctxNoNeighbor =
      some [150, 150, 150, 150, -1, -1, 50, 50, 50, 50, -1, -1,
        0, 0, 0, 0, 0, 0, 0, -4.5, 10] ∧
    ((getInputs2FIS 1 ctxNoNeighbor).getD []).getD 0 0 = 150 ∧
    ((getInputs2FIS 1 ctxNoNeighbor).getD []).getD 6 0 = 50 := by
  refine ⟨by with_unfolding_all decide, by with_unfolding_all decide,
    by with_unfolding_all decide⟩

theorem capD_lt (a : ℚ) : capD a < 150 := by
  unfold capD
  split_ifs with h
  · exact h
  · norm_num

theorem capS_lt (a : ℚ) : capS a < 50 := by
  unfold capS
  split_ifs with h
  · exact h
  · norm_num

/-- C3 (amended): the sentinel-to-(-1) mapping applies only to the slots of
lanes absent around the (hardcoded) segment `gneE4_0`, namely the right-lane
slots: in every successful feature vector the right-ahead/right-behind
distances (indices 4, 5) are strictly below 150 and the right speeds
(indices 10, 11) strictly below 50 — never the raw sentinels; the remaining
no-neighbor slots keep raw 150/50 (see the counterexample). -/
theorem C3_right_slots_never_raw (vehName : ℕ) (ctx : Context) (L : List ℚ)
    (h : getInputs2FIS vehName ctx = some L) :
    L.getD 4 0 < 150 ∧ L.getD 5 0 < 150 ∧ L.getD 10 0 < 50 ∧ L.getD 11 0 < 50 := by
  obtain ⟨self, st, _, _, hd6, hs6, hg6, hL⟩ := getInputs2FIS_shape vehName ctx L h
  obtain ⟨a0, a1, a2, a3, a4, a5, hda⟩ := length_six_destruct st.distances hd6
  obtain ⟨b0, b1, b2, b3, b4, b5, hsb⟩ := length_six_destruct st.speeds hs6
  rw [hda, hsb] at hL
  subst hL
  simp only [List.take, List.drop, List.map, List.cons_append, List.nil_append,
    List.getD_cons_zero, List.getD_cons_succ]
  exact ⟨capD_lt a4, capD_lt a5, capS_lt b4, capS_lt b5⟩

/-- Witness for C3 (amended) at the concrete no-neighbor snapshot. -/
theorem C3_witness :
    (([150, 150, 150, 150, -1, -1, 50, 50, 50, 50, -1, -1,
        0, 0, 0, 0, 0, 0, 0, -4.5, 10] : List ℚ).getD 4 0 < 150) ∧
    (([150, 150, 150, 150, -1, -1, 50, 50, 50, 50, -1, -1,
        0, 0, 0, 0, 0, 0, 0, -4.5, 10] : List ℚ).getD 10 0 < 50) := by
  have hres := C3_right_slots_never_raw 1 ctxNoNeighbor
    [150, 150, 150, 150, -1, -1, 50, 50, 50, 50, -1, -1,
      0, 0, 0, 0, 0, 0, 0, -4.5, 10] (by with_unfolding_all decide)
  exact ⟨hres.1, hres.2.2.1⟩

/-- Counterexample to C1: for an empty platoon the slot loop's first
iteration (`j = 0`) indexes the first vehicle of the empty filtered platoon
list, so `getBestMergePosition` fails (modelled `none`) instead of returning
the claimed decision `(null, null, 0)`. -/
theorem C1_counterexample :
    getBestMergePosition (fun _ => 0) (List.replicate 21 0) [] = none ∧
    getBestMergePosition (fun _ => 0) (List.replicate 21 0) [] ≠
      some (none, none, 0) := by
  have h1 : getBestMergePosition (fun _ => 0) (List.replicate 21 0) [] = none := rfl
  exact ⟨h1, by rw [h1]; simp⟩

/-- C1 (amended): for an empty platoon, `getBestMergePosition` does not
return a single-slot decision: the `j = 0` iteration accesses
`platoon_vehicles[0]` of an empty list and the call fails (IndexError,
modelled as `none`), for every scorer and every input feature vector. -/
theorem C1_empty_platoon_fails (scorer : List ℚ → ℚ) (inputs : List ℚ) :
    getBestMergePosition scorer inputs [] = none := rfl

/-- A platoon member inside the middle-lane band (`|y - 4.5| < 1.5`). -/
def vMid : RawVehicle := ⟨1, 0, 4.5, 10, 1, -3, "NONE"⟩

/-- A second member inside the band, at x-position 7. -/
def vMid2 : RawVehicle := ⟨2, 7, 4.5, 12, 1, -3, "NONE"⟩

/-- A platoon member outside the middle-lane band (y = 20). -/
def vOff : RawVehicle := ⟨3, 0, 20, 10, 1, -3, "NONE"⟩

/-- An all-zero 21-field feature vector. -/
def zeroInputs : List ℚ := List.replicate 21 0

/-- Property bundle for C4: the scorer is evaluated on exactly
`|platoon| + 1` candidate slots and the returned index is at most
`|platoon|`. -/
def slotCountAndRange (scorer : List ℚ → ℚ) (inputs : List ℚ)
    (M : List RawVehicle) : Prop :=
  (mergeSlotScores scorer inputs M).map List.length = some (M.length + 1) ∧
  ∃ l r best, getBestMergePosition scorer inputs M = some (l, r, best) ∧
    best ≤ M.length

/-- Counterexample to C4: a platoon of input size 2 with one member outside
the middle-lane band is scored on only 2 slots, not the claimed
`N + 1 = 3`. -/
theorem C4_counterexample :
    (mergeSlotScores (fun _ => 0) zeroInputs [vMid, vOff]).map List.length
      = some 2 ∧
    (mergeSlotScores (fun _ => 0) zeroInputs [vMid, vOff]).map List.length
      ≠ some ([vMid, vOff].length + 1) := by
  constructor
  · with_unfolding_all decide
  · with_unfolding_all decide

/-- C4 (amended): for every nonempty platoon all of whose members lie in the
middle-lane band, `getBestMergePosition` evaluates the slot scorer on exactly
`N + 1` candidate slots and returns a slot index in `[0, N]` (`N` the platoon
size); platoons with out-of-band members are scored on the filtered size
instead (see the counterexample), and the empty platoon fails (see C1). -/
theorem C4_slot_count_and_range (scorer : List ℚ → ℚ) (inputs : List ℚ)
    (M : List RawVehicle) (h21 : 21 ≤ inputs.length)
    (hband : ∀ m ∈ M, inBandB m = true) (hne : M ≠ []) :
    slotCountAndRange scorer inputs M := by
  have hfil : M.filter inBandB = M := List.filter_eq_self.mpr hband
  have hne' : M.filter inBandB ≠ [] := by rwa [hfil]
  obtain ⟨scores, mx, best, hs, hlen, _, hblt, _, _, heq⟩ :=
    getBestMergePosition_characterization scorer inputs M h21 hne'
  constructor
  · rw [hs, Option.map_some', hlen, hfil]
  · refine ⟨_, _, best, heq, ?_⟩
    rw [hfil] at hlen
    omega

/-- Witness for C4 (amended) at a concrete all-in-band two-member platoon. -/
theorem C4_witness : slotCountAndRange (fun _ => 0) zeroInputs [vMid, vMid2] :=
  C4_slot_count_and_range (fun _ => 0) zeroInputs [vMid, vMid2]
    (by with_unfolding_all decide) (by with_unfolding_all decide)
    (by with_unfolding_all decide)

/-- Property bundle for C9: the decision of `getBestMergePosition` in terms
of the band-filtered platoon: one score per filtered member plus one, and the
returned handles indexing into the filtered list with `none` at the open
ends. -/
def filteredDecision (scorer : List ℚ → ℚ) (inputs : List ℚ)
    (M : List RawVehicle) : Prop :=
  ∃ scores best,
    mergeSlotScores scorer inputs M = some scores ∧
    scores.length = (M.filter inBandB).length + 1 ∧
    best ≤ (M.filter inBandB).length ∧
    getBestMergePosition scorer inputs M =
      some ((if best = 0 then none else (M.filter inBandB)[best - 1]?),
            (if best = (M.filter inBandB).length then none
             else (M.filter inBandB)[best]?),
            best)

/-- C9: `getBestMergePosition` restricts the candidate platoon to the members
whose native y-coordinate satisfies `|y - 4.5| < 1.5` (the `inBandB` test);
out-of-band members are silently excluded, the number of scored slots is the
filtered member count plus one, and the returned leader/rear handles index
into the filtered list. -/
theorem C9_filtered_platoon_decision (scorer : List ℚ → ℚ) (inputs : List ℚ)
    (M : List RawVehicle) (h21 : 21 ≤ inputs.length)
    (hne : M.filter inBandB ≠ []) :
    filteredDecision scorer inputs M := by
  obtain ⟨scores, mx, best, hs, hlen, _, hblt, _, _, heq⟩ :=
    getBestMergePosition_characterization scorer inputs M h21 hne
  exact ⟨scores, best, hs, hlen, by omega, heq⟩

/-- Witness for C9 at the concrete two-member platoon with one out-of-band
member. -/
theorem C9_witness : filteredDecision (fun _ => 0) zeroInputs [vMid, vOff] :=
  C9_filtered_platoon_decision (fun _ => 0) zeroInputs [vMid, vOff]
    (by with_unfolding_all decide) (by with_unfolding_all decide)

/-- Another member inside the band, also at x-position 7 (for a score tie). -/
def vMid2a : RawVehicle := ⟨3, 7, 4.5, 11, 1, -3, "NONE"⟩

/-- Property bundle for C8: `b` is the first index of the score list
attaining the maximal score. -/
def firstMaxIndex (scoresO : Option (List ℚ)) (b : ℕ) : Prop :=
  ∃ scores mx, scoresO = some scores ∧ scores.max? = some mx ∧
    scores[b]? = some mx ∧ ∀ i < b, scores[i]? ≠ some mx

/-- C8: whenever `getBestMergePosition` returns a decision, the chosen slot
index is the first (lowest) index attaining the maximal score — Python's
`all_scores.index(max(all_scores))` — so score ties resolve to the lowest
slot index. -/
theorem C8_ties_resolve_to_lowest (scorer : List ℚ → ℚ) (inputs : List ℚ)
    (M : List RawVehicle) (l r : Option RawVehicle) (best : ℕ)
    (h21 : 21 ≤ inputs.length) (hne : M.filter inBandB ≠ [])
    (h : getBestMergePosition scorer inputs M = some (l, r, best)) :
    firstMaxIndex (mergeSlotScores scorer inputs M) best := by
  obtain ⟨scores, mx, best0, hs, _, hmx, _, hbval, hbmin, heq⟩ :=
    getBestMergePosition_characterization scorer inputs M h21 hne
  have htriple := Option.some_injective _ (h.symm.trans heq)
  have hb : best = best0 := congrArg (fun t => t.2.2) htriple
  subst hb
  exact ⟨scores, mx, hs, hmx, hbval, hbmin⟩

/-- Witness for C8 at a concrete two-member platoon where slots 1 and 2 tie
on the maximal score (scorer: negated leader x-position; scores
`[-500, -7, -7]`): the returned index is 1, the lowest tied index. -/
theorem C8_witness :
    firstMaxIndex
      (mergeSlotScores (fun v => -(v.getD 14 0)) zeroInputs [vMid2, vMid2a]) 1 :=
  C8_ties_resolve_to_lowest (fun v => -(v.getD 14 0)) zeroInputs
    [vMid2, vMid2a] (some vMid2) (some vMid2a) 1
    (by with_unfolding_all decide) (by with_unfolding_all decide)
    (by with_unfolding_all decide)

/-- A reference vehicle at the origin for the C5 counterexample. -/
def vRef : RawVehicle := ⟨1, 0, 0, 10, 1, -3, "NONE"⟩

/-- Counterexample to C5: with the world consisting of the reference vehicle
alone and radius 5, the snapshot contains the reference vehicle's own
identifier — the source has no identifier check (its own comment in
`getInputs2FIS` removes the current vehicle later), contradicting the claim
that the reference never appears. -/
theorem C5_counterexample :
    (getContext 5 [vRef] vRef).map Prod.fst = [1] ∧ vRef.id = 1 := by
  constructor
  · with_unfolding_all decide
  · rfl

/-- C5 (amended): the snapshot built by `getContext` contains exactly the
entries of the vehicles whose squared planar distance to the reference (in
sign-flipped coordinates) is at most the squared radius; there is no
identifier check, so the reference vehicle itself (distance zero) is included
whenever it is in the world.  (The source compares the unsquared distance to
the radius; both agree for every nonnegative radius.) -/
theorem C5_snapshot_membership (sensorRange : ℚ) (world : List RawVehicle)
    (ref : RawVehicle) (k : ℕ) (d : VehData) :
    (k, d) ∈ getContext sensorRange world ref ↔
      ∃ v ∈ world,
        (ref.locX - v.locX) ^ 2 + ((-ref.locY) - (-v.locY)) ^ 2 ≤ sensorRange ^ 2 ∧
        k = v.id ∧ d = mkCtxData v := by
  simp only [getContext, List.mem_filterMap, Option.ite_none_right_eq_some,
    Option.some.injEq, Prod.mk.injEq]
  constructor
  · rintro ⟨v, hv, hcond, hk, hd⟩
    exact ⟨v, hv, hcond, hk.symm, hd.symm⟩
  · rintro ⟨v, hv, hcond, hk, hd⟩
    exact ⟨v, hv, hcond, hk.symm, hd.symm⟩

/-- Modelled from the spec, for the refinement comparison of C6: the claimed
per-slot vector takes the distances, speeds and signals of the own-lane and
both adjacent-lane slots (all six slots of each block), the longitudinal
position and the own speed (the lateral coordinate excluded), then the
candidate leader's x-position and speed and the candidate rear's x-position
and speed. -/
def slotVectorClaimed (inputs : List ℚ) (e : SlotEnds) : List ℚ :=
  inputs.take 6 ++ (inputs.drop 6).take 6 ++ (inputs.drop 12).take 6 ++
    [inputs.getD 18 0, inputs.getD 20 0,
     e.leadPos.1, e.leadSpeed, e.rearPos.1, e.rearSpeed]

/-- A feature vector with 21 distinct field values, for the C6 comparison. -/
def distinctInputs : List ℚ :=
  [0, 1, 2, 3, 4, 5, 6, 7, 8, 9, 10, 11, 12, 13, 14, 15, 16, 17, 18, 19, 20]

/-- Concrete slot ends for the C6 comparison. -/
def someEnds : SlotEnds := ⟨(100, 7), 30, (90, 8), 25⟩

/-- Counterexample to C6: the per-slot vector built by the code keeps only
the left-lane and own-lane slots (indices 0-3 of each six-slot block) —
the right-lane slots (indices 4, 5 of each block) are dropped — so it differs
from the claimed vector that carries all adjacent-lane slots. -/
theorem C6_counterexample :
    fullList2 distinctInputs someEnds =
      some [0, 1, 2, 3, 6, 7, 8, 9, 12, 13, 14, 15, 18, 20, 100, 30, 90, 25] ∧
    fullList2 distinctInputs someEnds ≠
      some (slotVectorClaimed distinctInputs someEnds) := by
  constructor
  · with_unfolding_all decide
  · with_unfolding_all decide

/-- C6 (amended): the per-slot evaluation vector consists of the merging
vehicle's left-lane and own-lane slot features only — the first four entries
of each of the distance, speed and signal blocks; the right-lane slots are
excluded — plus its longitudinal position and own speed (lateral coordinate
excluded), concatenated with the candidate leader's x-position and speed and
the candidate rear's x-position and speed; slot 0 carries the leader
sentinels (position `(500, 500)`, speed 50) and slot `N` the same sentinels
for the rear. -/
theorem C6_slot_vector_composition (d s g : List ℚ) (x y v : ℚ) (e : SlotEnds)
    (pv : List RawVehicle) (r0 lN : RawVehicle)
    (rest1 rest2 : List RawVehicle)
    (hd : d.length = 6) (hs : s.length = 6) (hg : g.length = 6)
    (hhead : pv = r0 :: rest1) (hlast : pv = rest2 ++ [lN]) :
    fullList2 (d ++ s ++ g ++ [x, y] ++ [v]) e =
      some (d.take 4 ++ s.take 4 ++ g.take 4 ++
        [x, v, e.leadPos.1, e.leadSpeed, e.rearPos.1, e.rearSpeed]) ∧
    slotEnds pv 0 = some ⟨(500, 500), 50, getPosition r0, r0.speed⟩ ∧
    slotEnds pv pv.length = some ⟨getPosition lN, lN.speed, (500, 500), 50⟩ := by
  obtain ⟨d0, d1, d2, d3, d4, d5, rfl⟩ := length_six_destruct d hd
  obtain ⟨s0, s1, s2, s3, s4, s5, rfl⟩ := length_six_destruct s hs
  obtain ⟨g0, g1, g2, g3, g4, g5, rfl⟩ := length_six_destruct g hg
  refine ⟨rfl, ?_, ?_⟩
  · subst hhead; simp [slotEnds]
  · subst hlast
    have hlen : (rest2 ++ [lN]).length = rest2.length + 1 := by simp
    have hne0 : ¬((rest2 ++ [lN]).length = 0) := by simp
    have hgl : (rest2 ++ [lN])[(rest2 ++ [lN]).length - 1]? = some lN := by
      rw [hlen]
      simp only [Nat.add_sub_cancel]
      rw [List.getElem?_append_right (Nat.le_refl rest2.length)]
      simp
    simp [slotEnds, hne0, hgl]

/-- Witness for C6 (amended) at concrete blocks and a singleton platoon. -/
theorem C6_witness :
    fullList2 ([(0 : ℚ), 1, 2, 3, 4, 5] ++ [(6 : ℚ), 7, 8, 9, 10, 11] ++
        [(12 : ℚ), 13, 14, 15, 16, 17] ++ [18, 19] ++ [20]) someEnds =
      some ([(0 : ℚ), 1, 2, 3, 4, 5].take 4 ++ [(6 : ℚ), 7, 8, 9, 10, 11].take 4 ++
        [(12 : ℚ), 13, 14, 15, 16, 17].take 4 ++
        [18, 20, someEnds.leadPos.1, someEnds.leadSpeed,
          someEnds.rearPos.1, someEnds.rearSpeed]) ∧
    slotEnds [vMid] 0 = some ⟨(500, 500), 50, getPosition vMid, vMid.speed⟩ ∧
    slotEnds [vMid] ([vMid] : List RawVehicle).length =
      some ⟨getPosition vMid, vMid.speed, (500, 500), 50⟩ :=
  C6_slot_vector_composition [0, 1, 2, 3, 4, 5] [6, 7, 8, 9, 10, 11]
    [12, 13, 14, 15, 16, 17] 18 19 20 someEnds [vMid] vMid vMid [] []
    rfl rfl rfl rfl rfl

/-- C7: both desired-speed operations return
`currentSpeed + (3.55 * out - 0.95) * dt` for the model's first output value
`out`; in particular output 0 maps to acceleration `-0.95` and output 1 to
acceleration `2.60`. -/
theorem C7_desired_speed (ev : List ℚ → List ℚ) (dt sensorRange curSpeed : ℚ)
    (world : List RawVehicle) (vehicle : RawVehicle) (inputs : List ℚ) (out : ℚ)
    (hin : getInputs2FIS vehicle.id (getContext sensorRange world vehicle) =
      some inputs)
    (hout : (ev inputs)[0]? = some out) :
    getDesiredSpeed_pl ev dt sensorRange world vehicle curSpeed =
      some (curSpeed + ((3.55 : ℚ) * out - 0.95) * dt) ∧
    getDesiredSpeed_m ev dt sensorRange world vehicle curSpeed =
      some (curSpeed + ((3.55 : ℚ) * out - 0.95) * dt) ∧
    (3.55 : ℚ) * 0 - 0.95 = -0.95 ∧
    (3.55 : ℚ) * 1 - 0.95 = 2.60 := by
  refine ⟨?_, ?_, by norm_num, by norm_num⟩
  · simp only [getDesiredSpeed_pl, hin, hout]
  · simp only [getDesiredSpeed_m, hin, hout]

/-- Witness for C7: a lone vehicle in the middle band, a stub evaluator
returning 0.5, dt = 1, current speed 20. -/
theorem C7_witness :
    getDesiredSpeed_pl (fun _ => [0.5]) 1 5 [vMid] vMid 20 =
      some (20 + ((3.55 : ℚ) * 0.5 - 0.95) * 1) ∧
    getDesiredSpeed_m (fun _ => [0.5]) 1 5 [vMid] vMid 20 =
      some (20 + ((3.55 : ℚ) * 0.5 - 0.95) * 1) := by
  have h := C7_desired_speed (fun _ => [0.5]) 1 5 20 [vMid] vMid
    [150, 150, 150, 150, -1, -1, 50, 50, 50, 50, -1, -1,
      0, 0, 0, 0, 0, 0, 0, -4.5, 10] 0.5
    (by with_unfolding_all decide) rfl
  exact ⟨h.1, h.2.1⟩

end GFS
